import Mathlib

/-!
Verification development for the dependency-composition runtime of the
fastify-template repository.

The repository code under verification consists of the resolver helper
functions (`asSingletonClass`, `asControllerClass`, `asSingletonFunction`,
`registerDependencies` in `src/infrastructure/diCommon.ts`), the core
dependency configuration (`src/infrastructure/coreDiConfig.ts`), the error
handler (`src/infrastructure/errors/errorHandler.ts`), and the application
wiring (`src/app.ts`).  The container itself (awilix / awilix-manager /
@fastify/awilix) is an external collaborator whose code is not part of the
repository; where a property depends on container behaviour, the container
is modelled from the specification, and each such definition carries a
doc comment starting with `Modelled from the spec:`.

Machine values that only serve as identities (class constructors, factory
functions, produced instances, disposer callbacks) are represented by
natural-number identifiers; identity (reference) equality becomes equality
of those numbers.
-/

namespace FastifyTemplate

/-- Lifetime field values used by awilix resolvers.  The source uses the
string literals "SINGLETON", "SCOPED", "TRANSIENT". -/
def SINGLETON : String := "SINGLETON"

/-- The controller tag constant, translated from
`src/infrastructure/AbstractController.ts`:
`export const CONTROLLER_TAG = "controller"`. -/
def CONTROLLER_TAG : String := "controller"

/-- The subset of awilix `BuildResolverOptions` fields this repository
interacts with: `lifetime`, `tags` and `dispose`.  Each field is optional,
mirroring the optional properties of the TypeScript object; `dispose` holds
an identifier of the disposer callback when one is attached. -/
structure BuildResolverOptions where
  lifetime : Option String := none
  tags : Option (List String) := none
  dispose : Option Nat := none
  deriving DecidableEq, Repr

/-- A built awilix resolver as observed by this repository: the producer
(class constructor or factory function, by identifier), whether it was
built with `asClass` or `asFunction`, and the option fields carried over
from `BuildResolverOptions`. -/
structure Resolver where
  producer : Nat
  isClass : Bool
  lifetime : Option String := none
  tags : Option (List String) := none
  dispose : Option Nat := none
  deriving DecidableEq, Repr

/-- Modelled from the spec: awilix `asClass` is external-library code not in
this repository.  Per the Descriptor data model of the spec, it builds a
resolver for a class constructor carrying the supplied option fields; an
absent options argument behaves as the empty options object. -/
def asClass (cls : Nat) (opts : Option BuildResolverOptions) : Resolver :=
  let o := opts.getD {}
  { producer := cls, isClass := true
    lifetime := o.lifetime, tags := o.tags, dispose := o.dispose }

/-- Modelled from the spec: awilix `asFunction` is external-library code not
in this repository.  It builds a resolver for a factory function carrying
the supplied option fields. -/
def asFunction (fn : Nat) (opts : Option BuildResolverOptions) : Resolver :=
  let o := opts.getD {}
  { producer := fn, isClass := false
    lifetime := o.lifetime, tags := o.tags, dispose := o.dispose }

/-- Translated from `asSingletonClass` in `src/infrastructure/diCommon.ts`:
`asClass(Type, { ...opts, lifetime: "SINGLETON" })`.  The object spread
copies every field of `opts` and then overrides `lifetime`. -/
def asSingletonClass (cls : Nat) (opts : Option BuildResolverOptions := none) : Resolver :=
  asClass cls (some { opts.getD {} with lifetime := some SINGLETON })

/-- Translated from `asControllerClass` in `src/infrastructure/diCommon.ts`:
`asClass(Type, { ...opts, tags: [CONTROLLER_TAG], lifetime: "SINGLETON" })`.
Both `tags` and `lifetime` are written after the spread, so both override
whatever `opts` supplied. -/
def asControllerClass (cls : Nat) (opts : Option BuildResolverOptions := none) : Resolver :=
  asClass cls (some { opts.getD {} with
                       tags := some [CONTROLLER_TAG], lifetime := some SINGLETON })

/-- Translated from `asSingletonFunction` in `src/infrastructure/diCommon.ts`:
`asFunction(fn, { ...opts, lifetime: "SINGLETON" })`. -/
def asSingletonFunction (fn : Nat) (opts : Option BuildResolverOptions := none) : Resolver :=
  asFunction fn (some { opts.getD {} with lifetime := some SINGLETON })

/-- Identifier of the `() => initServer()` factory of `coreDiConfig.ts`. -/
def tsRestServerFactory : Nat := 0

/-- Identifier of the `() => app.awilixManager` factory of `coreDiConfig.ts`. -/
def awilixManagerFactory : Nat := 1

/-- Identifier of the `() => generateConfig()` factory of `coreDiConfig.ts`. -/
def configFactory : Nat := 2

/-- Identifier of the `({ config }) => new Kysely(...)` factory of
`coreDiConfig.ts`, which builds the Kysely instance over a pg Pool. -/
def databaseFactory : Nat := 3

/-- The record returned by `resolveCoreDependencies` in
`src/infrastructure/coreDiConfig.ts`. -/
structure CoreDependencyResolvers where
  tsRestServer : Resolver
  awilixManager : Resolver
  config : Resolver
  database : Resolver
  deriving DecidableEq, Repr

/-- Translated from `resolveCoreDependencies` in
`src/infrastructure/coreDiConfig.ts`: every core dependency, including
`database`, is built with `asSingletonFunction(factory)` and no options
argument, hence no `dispose` option is ever attached. -/
def resolveCoreDependencies : CoreDependencyResolvers :=
  { tsRestServer := asSingletonFunction tsRestServerFactory
    awilixManager := asSingletonFunction awilixManagerFactory
    config := asSingletonFunction configFactory
    database := asSingletonFunction databaseFactory }

/-- Field set of a `PublicNonRecoverableError`, translated from its uses in
`errorHandler.ts` and `UsersService.ts`: `message`, `errorCode`, an optional
`httpStatusCode`, and optional `details` (modelled as a key-value list). -/
structure PublicErrorFields where
  message : String
  errorCode : String
  httpStatusCode : Option Nat := none
  details : Option (List (String × String)) := none
  deriving DecidableEq, Repr

/-- Errors reaching the fastify error handler, as distinguished by the two
type guards used in `errorHandler.ts`: a `PublicNonRecoverableError`, an
`InternalError` (carrying message, errorCode and optional details), or any
other plain error. -/
inductive AppError where
  | publicNonRecoverable (fields : PublicErrorFields)
  | internal (message : String) (errorCode : String)
      (details : Option (List (String × String)))
  | plain (message : String)
  deriving DecidableEq, Repr

/-- The `isPublicNonRecoverableError` type guard (its defining module is
imported by `errorHandler.ts`): holds exactly for the
`PublicNonRecoverableError` class. -/
def isPublicNonRecoverableError : AppError → Bool
  | AppError.publicNonRecoverable _ => true
  | _ => false

/-- Payload of the `ResponseObject` type of `errorHandler.ts`; `details` is
an optional property and is absent (`none`) when not set. -/
structure ResponsePayload where
  message : String
  errorCode : String
  details : Option (List (String × String)) := none
  deriving DecidableEq, Repr

/-- The `ResponseObject` type of `errorHandler.ts`. -/
structure ResponseObject where
  statusCode : Nat
  payload : ResponsePayload
  deriving DecidableEq, Repr

/-- Translated from `resolveResponseObject` in `errorHandler.ts`: when the
`isPublicNonRecoverableError` guard holds, echo the httpStatusCode
(defaulting to 500 via `??`), message, errorCode and details of the error;
otherwise a fixed 500 response whose payload carries no details key. -/
def resolveResponseObject : AppError → ResponseObject
  | AppError.publicNonRecoverable f =>
      { statusCode := f.httpStatusCode.getD 500
        payload := { message := f.message, errorCode := f.errorCode
                     details := f.details } }
  | AppError.internal _ _ _ =>
      { statusCode := 500
        payload := { message := "Internal server error"
                     errorCode := "INTERNAL_SERVER_ERROR", details := none } }
  | AppError.plain _ =>
      { statusCode := 500
        payload := { message := "Internal server error"
                     errorCode := "INTERNAL_SERVER_ERROR", details := none } }

/-- Translated from `errorHandler` in `errorHandler.ts`, restricted to the
reply it sends: `reply.status(responseObject.statusCode)
.send(responseObject.payload)` where `responseObject =
resolveResponseObject(error)`.  The log side effects are not part of the
response. -/
def errorHandler (e : AppError) : ResponseObject :=
  resolveResponseObject e

/-- Modelled from the spec: the container state of the awilix container used
by `startApp` (awilix is external-library code).  `registrations` is the
append-capable registry in registration order; `cache` is the singleton
cache of the Lifetime Manager (name to instance identifier);
`constructionLog` records each singleton name at the moment of first
successful construction, in construction order, for the Disposal
Coordinator; `nextInstance` is the allocator for fresh instance
identities. -/
structure Container where
  registrations : List (String × Resolver)
  cache : List (String × Nat)
  constructionLog : List String
  nextInstance : Nat
  deriving DecidableEq, Repr

/-- The empty container produced by `createContainer` in `src/app.ts`. -/
def createContainer : Container :=
  { registrations := [], cache := [], constructionLog := [], nextInstance := 0 }

/-- Registry lookup by name (first registration wins, names being unique). -/
def lookupReg (c : Container) (n : String) : Option Resolver :=
  (c.registrations.find? (fun p => decide (p.fst = n))).map Prod.snd

/-- Singleton-cache lookup by name. -/
def lookupCache (c : Container) (n : String) : Option Nat :=
  (c.cache.find? (fun p => decide (p.fst = n))).map Prod.snd

/-- Number of times the singleton `n` has been constructed so far. -/
def constructionCount (c : Container) (n : String) : Nat :=
  c.constructionLog.count n

/-- The effective lifetime of a resolver; awilix defaults an absent
`lifetime` option to TRANSIENT. -/
def effectiveLifetime (r : Resolver) : String :=
  r.lifetime.getD "TRANSIENT"

/-- Modelled from the spec: `resolve(name)` of the Resolver component,
sequentially (outside any request scope).  Unknown names fail; a Singleton
name returns the cached instance when present and otherwise constructs a
fresh instance, caches it and appends the name to the construction log;
any other lifetime constructs a fresh untracked instance. -/
def resolve (c : Container) (n : String) : Option (Nat × Container) :=
  match lookupReg c n with
  | none => none
  | some r =>
      if effectiveLifetime r = SINGLETON then
        match lookupCache c n with
        | some i => some (i, c)
        | none =>
            some (c.nextInstance,
              { c with cache := (n, c.nextInstance) :: c.cache
                       constructionLog := c.constructionLog ++ [n]
                       nextInstance := c.nextInstance + 1 })
      else
        some (c.nextInstance, { c with nextInstance := c.nextInstance + 1 })

/-- Registration-time failure of the Registry. -/
inductive RegistrationError where
  | duplicateName (name : String)
  deriving DecidableEq, Repr

/-- Modelled from the spec: `register(descriptor)` of the Registry fails
with `DuplicateNameError` if the name already exists, and otherwise appends
the registration. -/
def register (c : Container) (n : String) (r : Resolver) :
    Except RegistrationError Container :=
  if (lookupReg c n).isSome then
    Except.error (RegistrationError.duplicateName n)
  else
    Except.ok { c with registrations := c.registrations ++ [(n, r)] }

/-- Translated from `registerDependencies` in
`src/infrastructure/diCommon.ts` over the spec-modelled `register`: iterate
the entries of the supplied resolver map and register each value (the
shallow copy taken by the source before registering is identity-invisible
here; see the object-heap model below for the copy semantics). -/
def registerDependencies (c : Container) (resolvers : List (String × Resolver)) :
    Except RegistrationError Container :=
  match resolvers with
  | [] => Except.ok c
  | (k, v) :: rest =>
      match register c k v with
      | Except.error e => Except.error e
      | Except.ok c₂ => registerDependencies c₂ rest

/-- Names of the registrations carrying `tag`, in registration order.
Modelled from the spec: the Tag Index maps a tag to the set of registered
names whose descriptor carries that tag (a resolver without a `tags` option
carries no tags). -/
def taggedNames (c : Container) (tag : String) : List String :=
  (c.registrations.filter (fun p => decide (tag ∈ p.snd.tags.getD []))).map Prod.fst

/-- Modelled from the spec: `resolve_all_tagged(tag)` (realised by
awilix-manager getWithTags in `src/app.ts`): resolve every registration
carrying `tag`, in registration order, and return the mapping from name to
resolved instance together with the final container state. -/
def resolveTaggedAux (c : Container) (entries : List (String × Resolver))
    (tag : String) : Container × List (String × Nat) :=
  match entries with
  | [] => (c, [])
  | (n, r) :: rest =>
      if tag ∈ r.tags.getD [] then
        match resolve c n with
        | none => resolveTaggedAux c rest tag
        | some (i, c₂) =>
            let (c₃, m) := resolveTaggedAux c₂ rest tag
            (c₃, (n, i) :: m)
      else
        resolveTaggedAux c rest tag

/-- Modelled from the spec: the bulk-discovery entry point over the whole
registry. -/
def resolveTagged (c : Container) (tag : String) : Container × List (String × Nat) :=
  resolveTaggedAux c c.registrations tag

/-- The disposer attached to the registration of `n`, when there is one. -/
def disposerOf (c : Container) (n : String) : Option Nat :=
  (lookupReg c n).bind Resolver.dispose

/-- Modelled from the spec: the iteration core of the Disposal Coordinator.
`run` gives the outcome of invoking a disposer callback.  Walking the given
name list, each name whose registration has a disposer is invoked (appended
to the trace) and a failure is recorded without stopping the walk. -/
def runDisposers (c : Container) (run : Nat → Except String Unit) :
    List String → List String × List (String × String)
  | [] => ([], [])
  | n :: rest =>
      match disposerOf c n with
      | none => runDisposers c run rest
      | some d =>
          let res := runDisposers c run rest
          match run d with
          | Except.ok _ => (n :: res.fst, res.snd)
          | Except.error e => (n :: res.fst, (n, e) :: res.snd)

/-- Modelled from the spec: `dispose_all()` of the Disposal Coordinator
(realised by the `disposeOnClose` teardown of `src/app.ts`): walk the
construction log in reverse order invoking each present disposer, then fail
with the aggregate of all recorded failures when there are any and succeed
otherwise.  Returns the invocation trace alongside the result. -/
def disposeAll (c : Container) (run : Nat → Except String Unit) :
    List String × Except (List (String × String)) Unit :=
  let res := runDisposers c run c.constructionLog.reverse
  (res.fst, if res.snd = [] then Except.ok () else Except.error res.snd)

namespace Boundary

/-- Modelled from the spec: a descriptor as supplied to `register_module`,
with the statically declared dependency name set the spec requires for
boundary checking (in the source this information lives only in the
TypeScript types, e.g. `UsersModulePublicDependencies`). -/
structure DescriptorSpec where
  name : String
  exported : Bool
  deps : List String
  deriving DecidableEq, Repr

/-- Modelled from the spec: a registered descriptor; `owner` is fixed at
registration to the module that registered it. -/
structure Descriptor where
  name : String
  owner : String
  exported : Bool
  deps : List String
  deriving DecidableEq, Repr

/-- Registry of the module world: registered descriptors in registration
order. -/
abbrev Registry : Type := List Descriptor

/-- Lookup of a registered descriptor by name. -/
def findDesc (reg : Registry) (n : String) : Option Descriptor :=
  List.find? (fun d => decide (d.name = n)) reg

/-- Failures of `register_module`. -/
inductive ModuleRegistrationError where
  | duplicateName (name : String)
  | boundaryViolation (requesting : String) (target : String)
  deriving DecidableEq, Repr

/-- Modelled from the spec: phase one of `register_module` applies each
descriptor in order, failing with `DuplicateNameError` when the name
already exists. -/
def addAll (reg : Registry) (owner : String) :
    List DescriptorSpec → Except ModuleRegistrationError Registry
  | [] => Except.ok reg
  | d :: rest =>
      if (findDesc reg d.name).isSome then
        Except.error (ModuleRegistrationError.duplicateName d.name)
      else
        addAll (reg ++ [{ name := d.name, owner := owner
                          exported := d.exported, deps := d.deps }]) owner rest

/-- Modelled from the spec: the Boundary Validator.  Scanning the supplied
descriptors in order, find the owner of the first declared dependency that
targets a registered name owned by a different module whose exported flag
is not set; names not present in the merged registry are not boundary
violations (they surface at resolution time instead). -/
def firstViolation (merged : Registry) (owner : String)
    (descs : List DescriptorSpec) : Option String :=
  descs.findSome? (fun d =>
    d.deps.findSome? (fun depName =>
      match findDesc merged depName with
      | none => none
      | some t =>
          if t.owner ≠ owner ∧ t.exported = false then some t.owner else none))

/-- Modelled from the spec: `register_module(owner, descriptors)` applies
every descriptor, then checks each declared cross-module dependency against
the exported flag of its target; a violation fails with
`BoundaryViolationError` identifying the requesting and the target
module. -/
def registerModule (reg : Registry) (owner : String)
    (descs : List DescriptorSpec) : Except ModuleRegistrationError Registry :=
  match addAll reg owner descs with
  | Except.error e => Except.error e
  | Except.ok merged =>
      match firstViolation merged owner descs with
      | some targetOwner =>
          Except.error (ModuleRegistrationError.boundaryViolation owner targetOwner)
      | none => Except.ok merged

/-- Modelled from the spec: the registry state after a load phase, making
the all-or-nothing rollback explicit: on any failure the registry is left
exactly as it was before the phase began. -/
def registerModuleState (reg : Registry) (owner : String)
    (descs : List DescriptorSpec) : Registry × Option ModuleRegistrationError :=
  match registerModule reg owner descs with
  | Except.ok merged => (merged, none)
  | Except.error e => (reg, some e)

end Boundary

namespace ObjHeap

/-- An object heap making JavaScript object identity explicit: objects are
references (numbers below `next`), and `val` gives the current field record
of each reference.  Resolver objects are the only objects needed here. -/
structure Heap where
  next : Nat
  val : Nat → Resolver

/-- Allocate a fresh object holding the given field record. -/
def alloc (h : Heap) (fields : Resolver) : Nat × Heap :=
  (h.next,
   { next := h.next + 1
     val := fun r => if r = h.next then fields else h.val r })

/-- The object spread `{ ..._dependencyValue }` of `registerDependencies`:
allocate a fresh object whose fields are those of the source object at the
moment of the spread (a shallow copy). -/
def spreadCopy (h : Heap) (src : Nat) : Nat × Heap :=
  alloc h (h.val src)

/-- Overwrite the field record of an existing object (models the caller
mutating its resolver object after registration). -/
def mutate (h : Heap) (ref : Nat) (fields : Resolver) : Heap :=
  { h with val := fun r => if r = ref then fields else h.val r }

/-- Translated from `registerDependencies` in
`src/infrastructure/diCommon.ts`, at the object level: for each
`[dependencyKey, _dependencyValue]` entry of the supplied map, take the
shallow copy `{ ..._dependencyValue }` and register the copy under the key.
Returns the final heap and the list of (key, registered object)
registrations in entry order. -/
def registerDependencies (h : Heap) :
    List (String × Nat) → Heap × List (String × Nat)
  | [] => (h, [])
  | (k, src) :: rest =>
      let c := spreadCopy h src
      let res := registerDependencies c.snd rest
      (res.fst, (k, c.fst) :: res.snd)

end ObjHeap

/-- The disposer failures a full teardown of `c` records: walking the
construction log in reverse, the (name, error) pairs of every present
disposer whose invocation fails. -/
def disposalFailures (c : Container) (run : Nat → Except String Unit) :
    List (String × String) :=
  c.constructionLog.reverse.filterMap (fun n =>
    match disposerOf c n with
    | some d =>
        match run d with
        | Except.error e => some (n, e)
        | Except.ok _ => none
    | none => none)

/-- C8: for every constructor or function and every opts argument, the
resolver returned by asSingletonClass, asControllerClass or
asSingletonFunction has lifetime "SINGLETON" even when opts specifies a
different lifetime, because the lifetime field is written after spreading
opts; asControllerClass additionally always attaches the "controller"
tag. -/
theorem helpers_force_singleton_lifetime_and_controller_tag
    (cls fn : Nat) (opts : Option BuildResolverOptions) :
    (asSingletonClass cls opts).lifetime = some SINGLETON ∧
    (asControllerClass cls opts).lifetime = some SINGLETON ∧
    (asControllerClass cls opts).tags = some [CONTROLLER_TAG] ∧
    (asSingletonFunction fn opts).lifetime = some SINGLETON :=
  ⟨rfl, rfl, rfl, rfl⟩

/-- C7 counterexample: the `database` dependency of
`resolveCoreDependencies` is registered with no disposer at all (the
`dispose` option of its resolver is absent), refuting the claim that its
descriptor has a disposer closing the connection pool. -/
theorem database_resolver_has_no_disposer :
    resolveCoreDependencies.database.dispose = none := rfl

/-- C7 (amended): the `database` dependency is registered as a singleton
resolver (lifetime "SINGLETON"), but no disposer is attached to it, so no
per-resolver disposer closes the connection pool on teardown. -/
theorem database_singleton_without_disposer :
    resolveCoreDependencies.database.lifetime = some SINGLETON ∧
    resolveCoreDependencies.database.dispose = none :=
  ⟨rfl, rfl⟩

/-- C10: every error that is not a PublicNonRecoverableError gets status 500
with the fixed payload (message "Internal server error", errorCode
"INTERNAL_SERVER_ERROR", no details) — in particular two different
non-public errors produce identical responses, so no internal message, code
or details leak — while a PublicNonRecoverableError is echoed with its own
httpStatusCode (500 when absent), message, errorCode and details. -/
theorem error_handler_response_characterization :
    (∀ e : AppError, isPublicNonRecoverableError e = false →
      errorHandler e =
        { statusCode := 500
          payload := { message := "Internal server error"
                       errorCode := "INTERNAL_SERVER_ERROR", details := none } }) ∧
    (∀ e₁ e₂ : AppError, isPublicNonRecoverableError e₁ = false →
      isPublicNonRecoverableError e₂ = false →
      errorHandler e₁ = errorHandler e₂) ∧
    (∀ f : PublicErrorFields,
      errorHandler (AppError.publicNonRecoverable f) =
        { statusCode := f.httpStatusCode.getD 500
          payload := { message := f.message, errorCode := f.errorCode
                       details := f.details } }) := by
  have hfix : ∀ e : AppError, isPublicNonRecoverableError e = false →
      errorHandler e =
        { statusCode := 500
          payload := { message := "Internal server error"
                       errorCode := "INTERNAL_SERVER_ERROR", details := none } } := by
    intro e he
    cases e with
    | publicNonRecoverable f => simp [isPublicNonRecoverableError] at he
    | internal m ec d => rfl
    | plain m => rfl
  refine ⟨hfix, ?_, fun f => rfl⟩
  intro e₁ e₂ h₁ h₂
  rw [hfix e₁ h₁, hfix e₂ h₂]

/-- Witness for C10 at concrete errors: an InternalError and a plain error
both produce the fixed 500 response, identically, and a
PublicNonRecoverableError with httpStatusCode 404 is echoed as a 404 with
its own fields. -/
theorem error_handler_response_characterization_witness :
    errorHandler (AppError.internal "db crashed" "DB_DOWN" none) =
      { statusCode := 500
        payload := { message := "Internal server error"
                     errorCode := "INTERNAL_SERVER_ERROR", details := none } } ∧
    errorHandler (AppError.internal "db crashed" "DB_DOWN" none) =
      errorHandler (AppError.plain "boom") ∧
    errorHandler (AppError.publicNonRecoverable
        { message := "User not found", errorCode := "USER_NOT_FOUND"
          httpStatusCode := some 404, details := none }) =
      { statusCode := 404
        payload := { message := "User not found"
                     errorCode := "USER_NOT_FOUND", details := none } } :=
  ⟨error_handler_response_characterization.1 _ (by decide),
   error_handler_response_characterization.2.1 _ _ (by decide) (by decide),
   error_handler_response_characterization.2.2
     { message := "User not found", errorCode := "USER_NOT_FOUND"
       httpStatusCode := some 404, details := none }⟩

/-- A singleton resolution with a warm cache returns the cached instance
and leaves the container untouched. -/
theorem resolve_singleton_cache_hit (c : Container) (n : String) (r : Resolver)
    (hlook : lookupReg c n = some r) (heff : effectiveLifetime r = SINGLETON)
    (i : Nat) (hc : lookupCache c n = some i) :
    resolve c n = some (i, c) := by
  unfold resolve
  split
  next heq => rw [hlook] at heq; cases heq
  next r' heq =>
    rw [hlook] at heq
    injection heq with h
    subst h
    rw [if_pos heff, hc]

/-- After a successful singleton resolution the instance is in the cache
and the registry is unchanged. -/
theorem resolve_singleton_cached (c : Container) (n : String) (r : Resolver)
    (hlook : lookupReg c n = some r) (heff : effectiveLifetime r = SINGLETON)
    (i : Nat) (c₁ : Container) (hres : resolve c n = some (i, c₁)) :
    lookupCache c₁ n = some i ∧ c₁.registrations = c.registrations := by
  unfold resolve at hres
  split at hres
  next heq => rw [hlook] at heq; cases heq
  next r' heq =>
    rw [hlook] at heq
    injection heq with h
    subst h
    rw [if_pos heff] at hres
    split at hres
    next j hcache =>
      simp only [Option.some.injEq, Prod.mk.injEq] at hres
      obtain ⟨rfl, rfl⟩ := hres
      exact ⟨hcache, rfl⟩
    next hcache =>
      simp only [Option.some.injEq, Prod.mk.injEq] at hres
      obtain ⟨rfl, rfl⟩ := hres
      refine ⟨?_, rfl⟩
      simp [lookupCache, List.find?]

/-- C1: for a name registered with one of the singleton helpers
(asSingletonClass, asControllerClass, asSingletonFunction), once a
resolution has returned instance `i` in state `c₁`, resolving again returns
the identical instance `i` and leaves the container state unchanged — so
the instance, once constructed and cached, is never reconstructed by any
later resolution. -/
theorem singleton_two_resolutions_same_instance
    (c : Container) (n : String) (cls fn : Nat) (opts : Option BuildResolverOptions)
    (hreg : lookupReg c n = some (asSingletonClass cls opts) ∨
            lookupReg c n = some (asControllerClass cls opts) ∨
            lookupReg c n = some (asSingletonFunction fn opts))
    (i : Nat) (c₁ : Container) (hres : resolve c n = some (i, c₁)) :
    resolve c₁ n = some (i, c₁) ∧ lookupCache c₁ n = some i := by
  have hr : ∃ r, lookupReg c n = some r ∧ effectiveLifetime r = SINGLETON := by
    rcases hreg with h | h | h
    · exact ⟨_, h, rfl⟩
    · exact ⟨_, h, rfl⟩
    · exact ⟨_, h, rfl⟩
  obtain ⟨r, hlook, heff⟩ := hr
  have hc := resolve_singleton_cached c n r hlook heff i c₁ hres
  have hlook₁ : lookupReg c₁ n = some r := by
    unfold lookupReg at hlook ⊢
    rw [hc.2]
    exact hlook
  exact ⟨resolve_singleton_cache_hit c₁ n r hlook₁ heff i hc.1, hc.1⟩

/-- Witness for C1: a container holding one asSingletonClass registration;
the first resolution constructs instance 0, and the second resolution
returns the identical instance 0 without touching the state. -/
theorem singleton_two_resolutions_same_instance_witness :
    resolve
        (Container.mk [("usersService", asSingletonClass 7)]
          [("usersService", 0)] ["usersService"] 1) "usersService" =
      some (0, Container.mk [("usersService", asSingletonClass 7)]
          [("usersService", 0)] ["usersService"] 1) ∧
    lookupCache
        (Container.mk [("usersService", asSingletonClass 7)]
          [("usersService", 0)] ["usersService"] 1) "usersService" = some 0 :=
  singleton_two_resolutions_same_instance
    (Container.mk [("usersService", asSingletonClass 7)] [] [] 0)
    "usersService" 7 0 none (Or.inl (by decide)) 0
    (Container.mk [("usersService", asSingletonClass 7)]
      [("usersService", 0)] ["usersService"] 1)
    (by decide)

/-- A successful `register` leaves every already-resolvable name bound to
the same resolver: registrations are appended, never overwritten. -/
theorem lookupReg_register_ok (c c₂ : Container) (k : String) (v : Resolver)
    (h : register c k v = Except.ok c₂) (n : String)
    (hs : (lookupReg c n).isSome) : lookupReg c₂ n = lookupReg c n := by
  unfold register at h
  split at h
  next => cases h
  next hk =>
    injection h with h'
    subst h'
    have hf : ∃ q, c.registrations.find? (fun p => decide (p.fst = n)) = some q := by
      cases hq : c.registrations.find? (fun p => decide (p.fst = n)) with
      | none => rw [lookupReg, hq] at hs; simp at hs
      | some q => exact ⟨q, rfl⟩
    obtain ⟨q, hq⟩ := hf
    unfold lookupReg
    simp only [List.find?_append, hq]
    rfl

/-- Propagation of a duplicate key through `registerDependencies`: if some
supplied key is already registered, the whole call fails with a
`DuplicateNameError`. -/
theorem registerDependencies_dup_error (rs : List (String × Resolver)) :
    ∀ c : Container, (∃ p ∈ rs, (lookupReg c p.fst).isSome) →
      ∃ n, registerDependencies c rs =
        Except.error (RegistrationError.duplicateName n) := by
  induction rs with
  | nil => intro c h; simp at h
  | cons hd rest ih =>
      intro c h
      obtain ⟨k, v⟩ := hd
      by_cases hk : (lookupReg c k).isSome
      · refine ⟨k, ?_⟩
        have hreg : register c k v =
            Except.error (RegistrationError.duplicateName k) := by
          unfold register; rw [if_pos hk]
        unfold registerDependencies
        rw [hreg]
      · have hreg : register c k v =
            Except.ok { c with registrations := c.registrations ++ [(k, v)] } := by
          unfold register; rw [if_neg hk]
        obtain ⟨p, hp, hps⟩ := h
        have hp' : p ∈ rest := by
          rcases List.mem_cons.mp hp with heq | hm
          · rw [heq] at hps; exact absurd hps hk
          · exact hm
        have hps₂ : (lookupReg
            { c with registrations := c.registrations ++ [(k, v)] } p.fst).isSome := by
          rw [lookupReg_register_ok c _ k v hreg p.fst hps]; exact hps
        obtain ⟨n, hrec⟩ := ih _ ⟨p, hp', hps₂⟩
        refine ⟨n, ?_⟩
        unfold registerDependencies
        rw [hreg]
        exact hrec

/-- C3: registering a name that already exists fails at registration time
with DuplicateNameError, and registerDependencies applied to a container
that already holds one of the supplied keys is a registration-time failure
(no Except.ok result, hence no silent overwrite). -/
theorem duplicate_registration_fails
    (c : Container) (rs : List (String × Resolver)) :
    (∀ n r, (lookupReg c n).isSome →
      register c n r = Except.error (RegistrationError.duplicateName n)) ∧
    ((∃ p ∈ rs, (lookupReg c p.fst).isSome) →
      ∃ n, registerDependencies c rs =
        Except.error (RegistrationError.duplicateName n)) := by
  constructor
  · intro n r hn
    unfold register
    rw [if_pos hn]
  · exact registerDependencies_dup_error rs c

/-- Witness for C3: a container already holding "config"; re-registering
"config" directly fails with DuplicateNameError, and registerDependencies
with a map containing the key "config" fails likewise. -/
theorem duplicate_registration_fails_witness :
    register (Container.mk [("config", asSingletonFunction 2)] [] [] 0)
        "config" (asSingletonFunction 9) =
      Except.error (RegistrationError.duplicateName "config") ∧
    ∃ n, registerDependencies
        (Container.mk [("config", asSingletonFunction 2)] [] [] 0)
        [("config", asSingletonFunction 9)] =
      Except.error (RegistrationError.duplicateName n) :=
  ⟨(duplicate_registration_fails
      (Container.mk [("config", asSingletonFunction 2)] [] [] 0)
      [("config", asSingletonFunction 9)]).1 "config"
      (asSingletonFunction 9) (by decide),
   (duplicate_registration_fails
      (Container.mk [("config", asSingletonFunction 2)] [] [] 0)
      [("config", asSingletonFunction 9)]).2
      ⟨("config", asSingletonFunction 9), by decide, by decide⟩⟩

/-- Closed form of the Disposal Coordinator walk: the invocation trace is
exactly the input order filtered to names with a disposer, and the recorded
failures are exactly the failing invocations, in the same order. -/
theorem runDisposers_eq (c : Container) (run : Nat → Except String Unit) :
    ∀ names : List String, runDisposers c run names =
      (names.filter (fun n => (disposerOf c n).isSome),
       names.filterMap (fun n =>
         match disposerOf c n with
         | some d =>
             match run d with
             | Except.error e => some (n, e)
             | Except.ok _ => none
         | none => none)) := by
  intro names
  induction names with
  | nil => rfl
  | cons n rest ih =>
      unfold runDisposers
      cases hd : disposerOf c n with
      | none => simp [hd, ih, List.filter_cons, List.filterMap_cons]
      | some d =>
          cases hr : run d with
          | ok u => simp [hd, hr, ih, List.filter_cons, List.filterMap_cons]
          | error e => simp [hd, hr, ih, List.filter_cons, List.filterMap_cons]

/-- C5: dispose_all walks exactly the reverse of the construction order,
invoking every present disposer — a failing disposer never prevents a later
disposer from running, since the trace is the full filtered reverse list no
matter what `run` returns — and after all disposers have run it fails with
the single aggregate of all recorded failures when there are any and
succeeds otherwise. -/
theorem dispose_all_reverse_order_and_aggregate
    (c : Container) (run : Nat → Except String Unit) :
    (disposeAll c run).fst =
      c.constructionLog.reverse.filter (fun n => (disposerOf c n).isSome) ∧
    (disposeAll c run).snd =
      (if disposalFailures c run = [] then Except.ok ()
       else Except.error (disposalFailures c run)) := by
  unfold disposeAll disposalFailures
  rw [runDisposers_eq]
  exact ⟨rfl, rfl⟩

/-- Any name present in the registry resolves to a registration. -/
theorem lookupReg_isSome_of_mem (c : Container) (n : String) (r : Resolver)
    (h : (n, r) ∈ c.registrations) : (lookupReg c n).isSome := by
  unfold lookupReg
  have hf : (c.registrations.find? (fun p => decide (p.fst = n))).isSome := by
    rw [List.find?_isSome]
    exact ⟨(n, r), h, by simp⟩
  cases hq : c.registrations.find? (fun p => decide (p.fst = n)) with
  | none => rw [hq] at hf; cases hf
  | some q => rfl

/-- Resolution never changes the registry. -/
theorem resolve_preserves_registrations (c : Container) (n : String)
    (i : Nat) (c₂ : Container) (h : resolve c n = some (i, c₂)) :
    c₂.registrations = c.registrations := by
  unfold resolve at h
  split at h
  next => cases h
  next r heq =>
    split at h
    · split at h
      next j hcache =>
        simp only [Option.some.injEq, Prod.mk.injEq] at h
        obtain ⟨rfl, rfl⟩ := h
        rfl
      next hcache =>
        simp only [Option.some.injEq, Prod.mk.injEq] at h
        obtain ⟨rfl, rfl⟩ := h
        rfl
    · simp only [Option.some.injEq, Prod.mk.injEq] at h
      obtain ⟨rfl, rfl⟩ := h
      rfl

/-- A registered name always resolves to some instance. -/
theorem resolve_some_of_registered (c : Container) (n : String)
    (h : (lookupReg c n).isSome) :
    ∃ i c₂, resolve c n = some (i, c₂) := by
  have hne : resolve c n ≠ none := by
    intro hnone
    unfold resolve at hnone
    split at hnone
    next heq => rw [heq] at h; cases h
    next r heq =>
      split at hnone
      · split at hnone
        next => cases hnone
        next => cases hnone
      · cases hnone
  cases hr : resolve c n with
  | none => exact absurd hr hne
  | some v => exact ⟨v.fst, v.snd, rfl⟩

/-- Names returned by the tagged bulk resolution: exactly the supplied
entries carrying the tag, in order, whenever every entry is registered. -/
theorem resolveTaggedAux_names (tag : String) :
    ∀ (entries : List (String × Resolver)) (c : Container),
      (∀ p ∈ entries, (lookupReg c p.fst).isSome) →
      (resolveTaggedAux c entries tag).snd.map Prod.fst =
        (entries.filter (fun p => decide (tag ∈ p.snd.tags.getD []))).map Prod.fst := by
  intro entries
  induction entries with
  | nil => intro c h; rfl
  | cons hd rest ih =>
      intro c h
      obtain ⟨n, r⟩ := hd
      unfold resolveTaggedAux
      by_cases ht : tag ∈ r.tags.getD []
      · rw [if_pos ht]
        have hn : (lookupReg c n).isSome := h (n, r) (List.mem_cons_self _ _)
        obtain ⟨i, c₂, hres⟩ := resolve_some_of_registered c n hn
        rw [hres]
        have hpres := resolve_preserves_registrations c n i c₂ hres
        have h₂ : ∀ p ∈ rest, (lookupReg c₂ p.fst).isSome := by
          intro p hp
          have : lookupReg c₂ p.fst = lookupReg c p.fst := by
            unfold lookupReg; rw [hpres]
          rw [this]
          exact h p (List.mem_cons_of_mem _ hp)
        simp only [List.filter_cons, List.map_cons]
        rw [if_pos (by simpa using ht)]
        simp only [List.map_cons]
        rw [← ih c₂ h₂]
      · rw [if_neg ht]
        simp only [List.filter_cons]
        rw [if_neg (by simpa using ht)]
        exact ih c (fun p hp => h p (List.mem_cons_of_mem _ hp))

/-- C6: the tagged bulk resolution returns exactly the registered
descriptors carrying the tag: the returned mapping is keyed by precisely
the tagged registration names (all of them and nothing else — untagged
registrations never appear), a name is tagged iff some registration under
it carries the tag, the tagged name set is permutation-invariant in the
registration order, and every registration built with asControllerClass
appears under the controller tag. -/
theorem resolve_tagged_exact
    (c c' : Container) (tag n : String) (cls : Nat)
    (opts : Option BuildResolverOptions) :
    (resolveTagged c tag).snd.map Prod.fst = taggedNames c tag ∧
    (n ∈ taggedNames c tag ↔
      ∃ r, (n, r) ∈ c.registrations ∧ tag ∈ r.tags.getD []) ∧
    (c'.registrations.Perm c.registrations →
      (taggedNames c' tag).Perm (taggedNames c tag)) ∧
    ((n, asControllerClass cls opts) ∈ c.registrations →
      n ∈ taggedNames c CONTROLLER_TAG) := by
  refine ⟨?_, ?_, ?_, ?_⟩
  · exact resolveTaggedAux_names tag c.registrations c
      (fun p hp => lookupReg_isSome_of_mem c p.fst p.snd hp)
  · constructor
    · intro hn
      unfold taggedNames at hn
      rw [List.mem_map] at hn
      obtain ⟨p, hp, hfst⟩ := hn
      rw [List.mem_filter] at hp
      refine ⟨p.snd, ?_, of_decide_eq_true hp.2⟩
      rw [← hfst]
      exact hp.1
    · rintro ⟨r, hmem, htag⟩
      unfold taggedNames
      rw [List.mem_map]
      exact ⟨(n, r), List.mem_filter.mpr ⟨hmem, decide_eq_true htag⟩, rfl⟩
  · intro hperm
    unfold taggedNames
    exact (hperm.filter _).map _
  · intro hmem
    unfold taggedNames
    rw [List.mem_map]
    refine ⟨(n, asControllerClass cls opts),
      List.mem_filter.mpr ⟨hmem, ?_⟩, rfl⟩
    exact decide_eq_true (List.mem_singleton_self CONTROLLER_TAG)

/-- Witness for C6: two controller-tagged registrations and one untagged
singleton; the bulk resolution keys are exactly the two tagged names in
both registration orders, and the asControllerClass entry is discovered
under the controller tag. -/
theorem resolve_tagged_exact_witness :
    (resolveTagged
        (Container.mk [("usersController", asControllerClass 1),
          ("usersService", asSingletonClass 2),
          ("adminController", asControllerClass 3)] [] [] 0)
        CONTROLLER_TAG).snd.map Prod.fst =
      taggedNames
        (Container.mk [("usersController", asControllerClass 1),
          ("usersService", asSingletonClass 2),
          ("adminController", asControllerClass 3)] [] [] 0) CONTROLLER_TAG ∧
    (taggedNames
        (Container.mk [("adminController", asControllerClass 3),
          ("usersService", asSingletonClass 2),
          ("usersController", asControllerClass 1)] [] [] 0)
        CONTROLLER_TAG).Perm
      (taggedNames
        (Container.mk [("usersController", asControllerClass 1),
          ("usersService", asSingletonClass 2),
          ("adminController", asControllerClass 3)] [] [] 0) CONTROLLER_TAG) ∧
    "usersController" ∈ taggedNames
        (Container.mk [("usersController", asControllerClass 1),
          ("usersService", asSingletonClass 2),
          ("adminController", asControllerClass 3)] [] [] 0) CONTROLLER_TAG :=
  ⟨(resolve_tagged_exact
      (Container.mk [("usersController", asControllerClass 1),
        ("usersService", asSingletonClass 2),
        ("adminController", asControllerClass 3)] [] [] 0)
      (Container.mk [("adminController", asControllerClass 3),
        ("usersService", asSingletonClass 2),
        ("usersController", asControllerClass 1)] [] [] 0)
      CONTROLLER_TAG "usersController" 1 none).1,
   (resolve_tagged_exact
      (Container.mk [("usersController", asControllerClass 1),
        ("usersService", asSingletonClass 2),
        ("adminController", asControllerClass 3)] [] [] 0)
      (Container.mk [("adminController", asControllerClass 3),
        ("usersService", asSingletonClass 2),
        ("usersController", asControllerClass 1)] [] [] 0)
      CONTROLLER_TAG "usersController" 1 none).2.2.1 (by decide),
   (resolve_tagged_exact
      (Container.mk [("usersController", asControllerClass 1),
        ("usersService", asSingletonClass 2),
        ("adminController", asControllerClass 3)] [] [] 0)
      (Container.mk [("adminController", asControllerClass 3),
        ("usersService", asSingletonClass 2),
        ("usersController", asControllerClass 1)] [] [] 0)
      CONTROLLER_TAG "usersController" 1 none).2.2.2 (by decide)⟩

/-- C4: register_module, when some supplied descriptor declares a
dependency on a name owned by a different module whose exported flag is not
set, fails with a BoundaryViolationError identifying the requesting module
and the owner of the violated target, and leaves the registry exactly as it
was before the phase began; when every cross-module target of the phase is
exported, the phase succeeds with all registrations applied. -/
theorem register_module_boundary
    (reg : Boundary.Registry) (owner : String)
    (descs : List Boundary.DescriptorSpec) (merged : Boundary.Registry)
    (hadd : Boundary.addAll reg owner descs = Except.ok merged) :
    ((∃ d ∈ descs, ∃ dep ∈ d.deps, ∃ t, Boundary.findDesc merged dep = some t ∧
        t.owner ≠ owner ∧ t.exported = false) →
      ∃ towner, Boundary.registerModuleState reg owner descs =
          (reg, some (Boundary.ModuleRegistrationError.boundaryViolation owner towner)) ∧
        ∃ d ∈ descs, ∃ dep ∈ d.deps, ∃ t, Boundary.findDesc merged dep = some t ∧
          t.owner = towner ∧ towner ≠ owner ∧ t.exported = false) ∧
    ((∀ d ∈ descs, ∀ dep ∈ d.deps, ∀ t, Boundary.findDesc merged dep = some t →
        t.owner ≠ owner → t.exported = true) →
      Boundary.registerModuleState reg owner descs = (merged, none)) := by
  constructor
  · intro hviol
    have hne : Boundary.firstViolation merged owner descs ≠ none := by
      intro hnone
      unfold Boundary.firstViolation at hnone
      rw [List.findSome?_eq_none_iff] at hnone
      obtain ⟨d, hd, dep, hdep, t, ht, hown, hexp⟩ := hviol
      have hinner := hnone d hd
      rw [List.findSome?_eq_none_iff] at hinner
      have h₁ := hinner dep hdep
      rw [ht] at h₁
      have h₂ : (if t.owner ≠ owner ∧ t.exported = false
          then some t.owner else none) = (none : Option String) := h₁
      rw [if_pos ⟨hown, hexp⟩] at h₂
      cases h₂
    cases hfv : Boundary.firstViolation merged owner descs with
    | none => exact absurd hfv hne
    | some towner =>
        have hrm : Boundary.registerModule reg owner descs =
            Except.error
              (Boundary.ModuleRegistrationError.boundaryViolation owner towner) := by
          unfold Boundary.registerModule
          rw [hadd]
          show (match Boundary.firstViolation merged owner descs with
                | some targetOwner =>
                    Except.error
                      (Boundary.ModuleRegistrationError.boundaryViolation owner targetOwner)
                | none => Except.ok merged) = _
          rw [hfv]
        refine ⟨towner, ?_, ?_⟩
        · unfold Boundary.registerModuleState
          rw [hrm]
        · unfold Boundary.firstViolation at hfv
          obtain ⟨d, hd, hfd⟩ := List.exists_of_findSome?_eq_some hfv
          obtain ⟨dep, hdep, hfdep⟩ := List.exists_of_findSome?_eq_some hfd
          refine ⟨d, hd, dep, hdep, ?_⟩
          cases ht : Boundary.findDesc merged dep with
          | none => rw [ht] at hfdep; cases hfdep
          | some t =>
              rw [ht] at hfdep
              have hfdep₂ : (if t.owner ≠ owner ∧ t.exported = false
                  then some t.owner else none) = some towner := hfdep
              by_cases hcond : t.owner ≠ owner ∧ t.exported = false
              · rw [if_pos hcond] at hfdep₂
                injection hfdep₂ with h
                exact ⟨t, rfl, h, h ▸ hcond.1, hcond.2⟩
              · rw [if_neg hcond] at hfdep₂
                cases hfdep₂
  · intro hok
    have hfv : Boundary.firstViolation merged owner descs = none := by
      unfold Boundary.firstViolation
      rw [List.findSome?_eq_none_iff]
      intro d hd
      rw [List.findSome?_eq_none_iff]
      intro dep hdep
      cases ht : Boundary.findDesc merged dep with
      | none => rfl
      | some t =>
          have hcond : ¬ (t.owner ≠ owner ∧ t.exported = false) := by
            rintro ⟨hown₂, hexp₂⟩
            rw [hok d hd dep hdep t ht hown₂] at hexp₂
            cases hexp₂
          show (if t.owner ≠ owner ∧ t.exported = false
              then some t.owner else none) = none
          rw [if_neg hcond]
    have hrm : Boundary.registerModule reg owner descs = Except.ok merged := by
      unfold Boundary.registerModule
      rw [hadd]
      show (match Boundary.firstViolation merged owner descs with
            | some targetOwner =>
                Except.error
                  (Boundary.ModuleRegistrationError.boundaryViolation owner targetOwner)
            | none => Except.ok merged) = _
      rw [hfv]
    unfold Boundary.registerModuleState
    rw [hrm]

/-- Witness for C4: module "orders" declares a dependency on
"usersService" owned by module "users".  With the target not exported the
phase fails with BoundaryViolationError("orders", "users") and the registry
is left as before the phase; with the target exported the phase succeeds
with both descriptors registered. -/
theorem register_module_boundary_witness :
    (∃ towner, Boundary.registerModuleState
        [Boundary.Descriptor.mk "usersService" "users" false []] "orders"
        [Boundary.DescriptorSpec.mk "ordersService" false ["usersService"]] =
        ([Boundary.Descriptor.mk "usersService" "users" false []],
         some (Boundary.ModuleRegistrationError.boundaryViolation "orders" towner)) ∧
      ∃ d ∈ [Boundary.DescriptorSpec.mk "ordersService" false ["usersService"]],
        ∃ dep ∈ d.deps, ∃ t,
          Boundary.findDesc
            [Boundary.Descriptor.mk "usersService" "users" false [],
             Boundary.Descriptor.mk "ordersService" "orders" false ["usersService"]]
            dep = some t ∧
          t.owner = towner ∧ towner ≠ "orders" ∧ t.exported = false) ∧
    Boundary.registerModuleState
        [Boundary.Descriptor.mk "usersService" "users" true []] "orders"
        [Boundary.DescriptorSpec.mk "ordersService" false ["usersService"]] =
      ([Boundary.Descriptor.mk "usersService" "users" true [],
        Boundary.Descriptor.mk "ordersService" "orders" false ["usersService"]],
       none) :=
  ⟨(register_module_boundary
      [Boundary.Descriptor.mk "usersService" "users" false []] "orders"
      [Boundary.DescriptorSpec.mk "ordersService" false ["usersService"]]
      [Boundary.Descriptor.mk "usersService" "users" false [],
       Boundary.Descriptor.mk "ordersService" "orders" false ["usersService"]]
      rfl).1
      ⟨Boundary.DescriptorSpec.mk "ordersService" false ["usersService"],
       List.mem_singleton_self _, "usersService", List.mem_singleton_self _,
       Boundary.Descriptor.mk "usersService" "users" false [],
       rfl, by decide, rfl⟩,
   (register_module_boundary
      [Boundary.Descriptor.mk "usersService" "users" true []] "orders"
      [Boundary.DescriptorSpec.mk "ordersService" false ["usersService"]]
      [Boundary.Descriptor.mk "usersService" "users" true [],
       Boundary.Descriptor.mk "ordersService" "orders" false ["usersService"]]
      rfl).2
      (by
        intro d hd dep hdep t ht hne
        rw [List.mem_singleton] at hd
        subst hd
        rw [List.mem_singleton] at hdep
        subst hdep
        have ht₂ : some (Boundary.Descriptor.mk "usersService" "users" true []) =
            some t := ht
        injection ht₂ with h
        rw [← h])⟩

/-- Inductive characterization of the object-level registerDependencies:
one registration per entry, the heap allocator only grows, objects existing
before the call keep their fields, and each registered object is a fresh
reference (at or above the old allocation bound) holding the fields the
source object had at call time. -/
theorem registerDependenciesHeap_spec :
    ∀ (entries : List (String × Nat)) (h : ObjHeap.Heap),
      (∀ p ∈ entries, p.snd < h.next) →
      (ObjHeap.registerDependencies h entries).snd.length = entries.length ∧
      h.next ≤ (ObjHeap.registerDependencies h entries).fst.next ∧
      (∀ r, r < h.next →
        (ObjHeap.registerDependencies h entries).fst.val r = h.val r) ∧
      (∀ q ∈ entries.zip (ObjHeap.registerDependencies h entries).snd,
        q.snd.fst = q.fst.fst ∧
        (ObjHeap.registerDependencies h entries).fst.val q.snd.snd =
          h.val q.fst.snd ∧
        h.next ≤ q.snd.snd ∧
        q.snd.snd < (ObjHeap.registerDependencies h entries).fst.next) := by
  intro entries
  induction entries with
  | nil =>
      intro h hwf
      exact ⟨rfl, Nat.le_refl _, fun r hr => rfl, by simp⟩
  | cons hd rest ih =>
      intro h hwf
      obtain ⟨k, src⟩ := hd
      have hwf₂ : ∀ p ∈ rest, p.snd < (ObjHeap.spreadCopy h src).snd.next := by
        intro p hp
        exact Nat.lt_succ_of_lt (hwf p (List.mem_cons_of_mem _ hp))
      obtain ⟨ihlen, ihnext, ihpres, ihzip⟩ := ih (ObjHeap.spreadCopy h src).snd hwf₂
      refine ⟨?_, ?_, ?_, ?_⟩
      · show ((k, h.next) ::
            (ObjHeap.registerDependencies
              (ObjHeap.spreadCopy h src).snd rest).snd).length = rest.length + 1
        rw [List.length_cons, ihlen]
      · show h.next ≤
            (ObjHeap.registerDependencies (ObjHeap.spreadCopy h src).snd rest).fst.next
        exact Nat.le_trans (Nat.le_succ _) ihnext
      · intro r hr
        show (ObjHeap.registerDependencies
            (ObjHeap.spreadCopy h src).snd rest).fst.val r = h.val r
        rw [ihpres r (Nat.lt_succ_of_lt hr)]
        show (if r = h.next then h.val src else h.val r) = h.val r
        rw [if_neg (Nat.ne_of_lt hr)]
      · intro q hq
        have hq' : q ∈ ((k, src), (k, h.next)) ::
            rest.zip (ObjHeap.registerDependencies
              (ObjHeap.spreadCopy h src).snd rest).snd := hq
        rcases List.mem_cons.mp hq' with rfl | hmem
        · refine ⟨rfl, ?_, Nat.le_refl _, ?_⟩
          · show (ObjHeap.registerDependencies
                (ObjHeap.spreadCopy h src).snd rest).fst.val h.next = h.val src
            rw [ihpres h.next (Nat.lt_succ_self _)]
            show (if h.next = h.next then h.val src else h.val h.next) = h.val src
            rw [if_pos rfl]
          · show h.next < (ObjHeap.registerDependencies
                (ObjHeap.spreadCopy h src).snd rest).fst.next
            exact Nat.lt_of_lt_of_le (Nat.lt_succ_self _) ihnext
        · obtain ⟨hkey, hfields, hlow, hhigh⟩ := ihzip q hmem
          have hsrcmem : q.fst ∈ rest := (List.of_mem_zip hmem).1
          have hsrclt : q.fst.snd < h.next :=
            hwf q.fst (List.mem_cons_of_mem _ hsrcmem)
          refine ⟨hkey, ?_, Nat.le_trans (Nat.le_succ _) hlow, hhigh⟩
          show (ObjHeap.registerDependencies
              (ObjHeap.spreadCopy h src).snd rest).fst.val q.snd.snd = h.val q.fst.snd
          rw [hfields]
          show (if q.fst.snd = h.next then h.val src else h.val q.fst.snd) =
            h.val q.fst.snd
          rw [if_neg (Nat.ne_of_lt hsrclt)]

/-- C9: registerDependencies registers, for each (key, resolver object)
entry, a fresh shallow copy of the resolver under that key: one
registration per entry, the registered object holds exactly the fields the
supplied object had at call time, it is a distinct object from the supplied
one, and mutating any object that existed before the call (in particular
the caller's resolver object) leaves the registered copy's fields
unchanged. -/
theorem register_dependencies_shallow_copy
    (h : ObjHeap.Heap) (entries : List (String × Nat))
    (hwf : ∀ p ∈ entries, p.snd < h.next) :
    (ObjHeap.registerDependencies h entries).snd.length = entries.length ∧
    ∀ q ∈ entries.zip (ObjHeap.registerDependencies h entries).snd,
      q.snd.fst = q.fst.fst ∧
      (ObjHeap.registerDependencies h entries).fst.val q.snd.snd =
        h.val q.fst.snd ∧
      q.snd.snd ≠ q.fst.snd ∧
      ∀ (src : Nat) (fields : Resolver), src < h.next →
        (ObjHeap.mutate (ObjHeap.registerDependencies h entries).fst
            src fields).val q.snd.snd =
          (ObjHeap.registerDependencies h entries).fst.val q.snd.snd := by
  obtain ⟨hlen, _, _, hzip⟩ := registerDependenciesHeap_spec entries h hwf
  refine ⟨hlen, ?_⟩
  intro q hq
  obtain ⟨hkey, hfields, hlow, _⟩ := hzip q hq
  have hsrclt : q.fst.snd < h.next := hwf q.fst (List.of_mem_zip hq).1
  refine ⟨hkey, hfields, ?_, ?_⟩
  · exact (Nat.ne_of_lt (Nat.lt_of_lt_of_le hsrclt hlow)).symm
  · intro src fields hsrc
    have hne : q.snd.snd ≠ src :=
      (Nat.ne_of_lt (Nat.lt_of_lt_of_le hsrc hlow)).symm
    show (if q.snd.snd = src then fields
        else (ObjHeap.registerDependencies h entries).fst.val q.snd.snd) =
      (ObjHeap.registerDependencies h entries).fst.val q.snd.snd
    rw [if_neg hne]

/-- Witness for C9: a heap with one resolver object (reference 0); the
single entry is registered under its key as the fresh reference 1 carrying
the same fields, and mutating reference 0 afterwards leaves it unchanged. -/
theorem register_dependencies_shallow_copy_witness :
    (ObjHeap.registerDependencies
        (ObjHeap.Heap.mk 1 (fun _ => asSingletonClass 5))
        [("usersService", 0)]).snd.length = 1 ∧
    ∀ q ∈ [("usersService", (0 : Nat))].zip
        (ObjHeap.registerDependencies
          (ObjHeap.Heap.mk 1 (fun _ => asSingletonClass 5))
          [("usersService", 0)]).snd,
      q.snd.fst = q.fst.fst ∧
      (ObjHeap.registerDependencies
          (ObjHeap.Heap.mk 1 (fun _ => asSingletonClass 5))
          [("usersService", 0)]).fst.val q.snd.snd =
        (ObjHeap.Heap.mk 1 (fun _ => asSingletonClass 5)).val q.fst.snd ∧
      q.snd.snd ≠ q.fst.snd ∧
      ∀ (src : Nat) (fields : Resolver), src < 1 →
        (ObjHeap.mutate (ObjHeap.registerDependencies
            (ObjHeap.Heap.mk 1 (fun _ => asSingletonClass 5))
            [("usersService", 0)]).fst src fields).val q.snd.snd =
          (ObjHeap.registerDependencies
            (ObjHeap.Heap.mk 1 (fun _ => asSingletonClass 5))
            [("usersService", 0)]).fst.val q.snd.snd :=
  register_dependencies_shallow_copy
    (ObjHeap.Heap.mk 1 (fun _ => asSingletonClass 5))
    [("usersService", 0)] (by decide)
